import Mathlib

/-!
Verification of the equation-system orchestration and field-lifecycle layer
of the nalu-wind repository (EquationSystems, EquationSystem, FieldManager).

The C++ code is shallowly embedded: each orchestration member function of
`EquationSystems` (src/include/EquationSystem.h) is translated into a Lean
function that returns the trace of collaborator calls it performs (as a list
of events, in execution order) together with its return value; fatal errors
(C++ `throw std::runtime_error`) are modelled as an `Option`/`Except` error
component, with the events emitted before the throw kept in the trace.
Doubles that only ever flow through `std::max` and comparisons are embedded
as rationals, which is exact for those operations.
-/

/-- Model of one owned `EquationSystem` as seen by the orchestrator: the only
observations `EquationSystems` makes of a system in the claims at hand are the
result of `system_is_converged()`, the result of `provide_scaled_norm()`, and
the size of its `bcDataAlg_` vector. -/
structure EqSys where
  converged : Bool
  scaledNorm : ℚ
  numBcDataAlg : Nat
  deriving DecidableEq

/-- Model of the `EquationSystems` collection state: the ordered vector
`equationSystemVector_` (registration order), the realm flag
`realm_.hasOverset_`, and the sizes of the global driver lists
`preIterAlgDriver_` and `postIterAlgDriver_`. -/
structure EqSystems where
  systems : List EqSys
  hasOverset : Bool
  numPreIterAlg : Nat
  numPostIterAlg : Nat
  deriving DecidableEq

/-- One collaborator call made by the orchestrator during
`EquationSystems::solve_and_update` and related member functions. -/
inductive Event where
  | oversetUpdate : Event
  | globalPreIterAlg (k : Nat) : Event
  | sysPreIter (s : EqSys) : Event
  | sysSolveUpdate (s : EqSys) : Event
  | sysPostIter (s : EqSys) : Event
  | sysPostIterDep (s : EqSys) : Event
  | globalPostIterAlg (k : Nat) : Event
  | convergenceQuery (s : EqSys) : Event
  | postExtDataTransfer (s : EqSys) : Event
  deriving DecidableEq

/-- Occurrence count of an element in a list (explicit recursion, used instead
of `List.count` to keep all counting proofs elementary). -/
def countOcc {α : Type} [DecidableEq α] (a : α) : List α → Nat
  | [] => 0
  | x :: rest => (if x = a then 1 else 0) + countOcc a rest

/-- Trace of `for (auto alg : preIterAlgDriver_) alg->execute();` style loops:
`mk 0, mk 1, ..., mk (n-1)` in order. -/
def algLoopTrace (mk : Nat → Event) : Nat → List Event
  | 0 => []
  | n + 1 => algLoopTrace mk n ++ [mk n]

/-- `EquationSystems::pre_iter_work`: if the realm has overset meshes the
fringe updater `oversetUpdater_->execute()` runs first, then every driver in
`preIterAlgDriver_` in order. -/
def EqSystems.pre_iter_work (es : EqSystems) : List Event :=
  (if es.hasOverset then [Event.oversetUpdate] else [])
    ++ algLoopTrace Event.globalPreIterAlg es.numPreIterAlg

/-- `EquationSystems::post_iter_work`: every driver in `postIterAlgDriver_`
in order. -/
def EqSystems.post_iter_work (es : EqSystems) : List Event :=
  algLoopTrace Event.globalPostIterAlg es.numPostIterAlg

/-- The first per-system loop of `EquationSystems::solve_and_update`:
`pre_iter_work(); solve_and_update(); post_iter_work();` on every system in
registration order. -/
def sysLoopTrace : List EqSys → List Event
  | [] => []
  | s :: rest =>
    Event.sysPreIter s :: Event.sysSolveUpdate s :: Event.sysPostIter s
      :: sysLoopTrace rest

/-- The second per-system loop of `EquationSystems::solve_and_update`:
`post_iter_work_dep()` on every system in registration order. -/
def depLoopTrace : List EqSys → List Event
  | [] => []
  | s :: rest => Event.sysPostIterDep s :: depLoopTrace rest

/-- The convergence loop of `EquationSystems::solve_and_update`: the calls to
`system_is_converged()` on every system in registration order. -/
def convLoopTrace : List EqSys → List Event
  | [] => []
  | s :: rest => Event.convergenceQuery s :: convLoopTrace rest

/-- The accumulator of the convergence loop:
`if (!systemConverged) overallConvergence = false;` folded over the vector. -/
def convLoopResult : List EqSys → Bool → Bool
  | [], acc => acc
  | s :: rest, acc => convLoopResult rest (if s.converged then acc else false)

/-- `EquationSystems::solve_and_update` (src/include/EquationSystem.h,
lines 1384-1423): collection-level `pre_iter_work`; then per system
pre/solve/post; then the `post_iter_work_dep` pass; then collection-level
`post_iter_work`; then the convergence loop.  Returns the trace and the
returned `overallConvergence` boolean. -/
def EqSystems.solve_and_update (es : EqSystems) : List Event × Bool :=
  (es.pre_iter_work
      ++ sysLoopTrace es.systems
      ++ depLoopTrace es.systems
      ++ es.post_iter_work
      ++ convLoopTrace es.systems,
    convLoopResult es.systems true)

/-- The loop body of `EquationSystems::provide_system_norm`:
`maxNorm = std::max(maxNorm, (*ii)->provide_scaled_norm());`. -/
def maxLoop : List EqSys → ℚ → ℚ
  | [], m => m
  | s :: rest, m => maxLoop rest (max m s.scaledNorm)

/-- `EquationSystems::provide_system_norm` (lines 1428-1437): fold of
`std::max` over the scaled norms, starting from `-1.0e16`. -/
def EqSystems.provide_system_norm (es : EqSystems) : ℚ :=
  maxLoop es.systems (-10000000000000000)

/-- The inner loop of `EquationSystems::post_external_data_transfer_work`:
`for (size_t k = 0; k < bcDataAlg_.size(); ++k)` the member calls the hook of
the system itself once per iteration. -/
def bcAlgLoopTrace (s : EqSys) : Nat → List Event
  | 0 => []
  | k + 1 => bcAlgLoopTrace s k ++ [Event.postExtDataTransfer s]

/-- The outer loop of `EquationSystems::post_external_data_transfer_work`
over `equationSystemVector_`. -/
def pedLoopTrace : List EqSys → List Event
  | [] => []
  | s :: rest => bcAlgLoopTrace s s.numBcDataAlg ++ pedLoopTrace rest

/-- `EquationSystems::post_external_data_transfer_work` (lines 1499-1509). -/
def EqSystems.post_external_data_transfer_work (es : EqSystems) : List Event :=
  pedLoopTrace es.systems

/-- Recognizer for convergence-query events. -/
def isConvQuery : Event → Bool
  | Event.convergenceQuery _ => true
  | _ => false

/-! Helper lemmas about the loop traces. -/

theorem countOcc_append {α : Type} [DecidableEq α] (a : α) (l1 l2 : List α) :
    countOcc a (l1 ++ l2) = countOcc a l1 + countOcc a l2 := by
  induction l1 with
  | nil => simp [countOcc]
  | cons x rest ih => simp [countOcc, ih]; omega

theorem filter_conv_algLoop (mk : Nat → Event)
    (hmk : ∀ k, isConvQuery (mk k) = false) (n : Nat) :
    (algLoopTrace mk n).filter isConvQuery = [] := by
  induction n with
  | zero => rfl
  | succ n ih => simp [algLoopTrace, List.filter_append, ih, hmk]

theorem filter_conv_sysLoop (l : List EqSys) :
    (sysLoopTrace l).filter isConvQuery = [] := by
  induction l with
  | nil => rfl
  | cons s rest ih => simp [sysLoopTrace, List.filter, isConvQuery, ih]

theorem filter_conv_depLoop (l : List EqSys) :
    (depLoopTrace l).filter isConvQuery = [] := by
  induction l with
  | nil => rfl
  | cons s rest ih => simp [depLoopTrace, List.filter, isConvQuery, ih]

theorem convLoopTrace_eq_map (l : List EqSys) :
    convLoopTrace l = l.map Event.convergenceQuery := by
  induction l with
  | nil => rfl
  | cons s rest ih => simp [convLoopTrace, ih]

theorem filter_conv_convLoop (l : List EqSys) :
    (convLoopTrace l).filter isConvQuery = convLoopTrace l := by
  induction l with
  | nil => rfl
  | cons s rest ih => simp [convLoopTrace, List.filter, isConvQuery, ih]

theorem convLoopResult_eq_all (l : List EqSys) (acc : Bool) :
    convLoopResult l acc = (acc && l.all (fun s => s.converged)) := by
  induction l generalizing acc with
  | nil => simp [convLoopResult]
  | cons s rest ih =>
    cases hs : s.converged <;>
      simp [convLoopResult, hs, ih, Bool.false_and, Bool.and_comm,
        Bool.and_assoc, Bool.and_left_comm]

/-- C1: one call to `EquationSystems::solve_and_update` performs the
`system_is_converged()` query exactly once on every owned equation system, in
registration order with no short-circuit (the sub-trace of convergence queries
is exactly one query per owned system), and the returned boolean is the
logical AND of all the query results. -/
theorem solve_and_update_conv_aggregation (es : EqSystems) :
    (es.solve_and_update.1.filter isConvQuery
        = es.systems.map Event.convergenceQuery)
      ∧ es.solve_and_update.2 = es.systems.all (fun s => s.converged) := by
  constructor
  · show ((es.pre_iter_work ++ sysLoopTrace es.systems
        ++ depLoopTrace es.systems ++ es.post_iter_work
        ++ convLoopTrace es.systems).filter isConvQuery) = _
    rw [List.filter_append, List.filter_append, List.filter_append,
      List.filter_append]
    rw [filter_conv_sysLoop, filter_conv_depLoop, filter_conv_convLoop]
    have hpre : es.pre_iter_work.filter isConvQuery = [] := by
      unfold EqSystems.pre_iter_work
      rw [List.filter_append,
        filter_conv_algLoop Event.globalPreIterAlg (fun _ => rfl)]
      cases es.hasOverset <;> rfl
    have hpost : es.post_iter_work.filter isConvQuery = [] :=
      filter_conv_algLoop Event.globalPostIterAlg (fun _ => rfl) _
    rw [hpre, hpost, convLoopTrace_eq_map]
    simp
  · show convLoopResult es.systems true = _
    rw [convLoopResult_eq_all]
    simp

/-! Claim C2: the fixed order of calls inside
`EquationSystems::solve_and_update`. -/

/-- Specification-side statement of the call order (written from the words of
the spec, for comparison against the source-derived trace): first the
collection-level pre-iteration work (overset fringe updater when the realm has
overset meshes, then every global pre-iteration algorithm in registration
order), then per owned system in registration order the triple
pre-iteration/solve/post-iteration, then a separate full pass of the
deprecated `post_iter_work_dep` hook, then every global post-iteration
algorithm in registration order, and finally the convergence queries. -/
def specSolveUpdateOrder (es : EqSystems) : List Event :=
  (if es.hasOverset then [Event.oversetUpdate] else [])
    ++ (List.range es.numPreIterAlg).map Event.globalPreIterAlg
    ++ (es.systems.map (fun s =>
          [Event.sysPreIter s, Event.sysSolveUpdate s, Event.sysPostIter s])).flatten
    ++ es.systems.map Event.sysPostIterDep
    ++ (List.range es.numPostIterAlg).map Event.globalPostIterAlg
    ++ es.systems.map Event.convergenceQuery

theorem algLoopTrace_eq_range_map (mk : Nat → Event) (n : Nat) :
    algLoopTrace mk n = (List.range n).map mk := by
  induction n with
  | zero => rfl
  | succ n ih => rw [algLoopTrace, ih, List.range_succ]; simp

theorem sysLoopTrace_eq_join (l : List EqSys) :
    sysLoopTrace l = (l.map (fun s =>
      [Event.sysPreIter s, Event.sysSolveUpdate s, Event.sysPostIter s])).flatten := by
  induction l with
  | nil => rfl
  | cons s rest ih => simp [sysLoopTrace, ih]

theorem depLoopTrace_eq_map (l : List EqSys) :
    depLoopTrace l = l.map Event.sysPostIterDep := by
  induction l with
  | nil => rfl
  | cons s rest ih => simp [depLoopTrace, ih]

/-- C2: the trace of one `EquationSystems::solve_and_update` call is exactly
the sequence asserted by the specification: collection pre-iteration work
(fringe updater first when overset, then the global pre-iteration algorithms
in order), then per system in registration order pre/solve/post, then the
separate never-skipped `post_iter_work_dep` pass, then the global
post-iteration algorithms in order, then the convergence queries. -/
theorem solve_and_update_call_order (es : EqSystems) :
    es.solve_and_update.1 = specSolveUpdateOrder es := by
  show es.pre_iter_work ++ sysLoopTrace es.systems ++ depLoopTrace es.systems
      ++ es.post_iter_work ++ convLoopTrace es.systems = _
  rw [EqSystems.pre_iter_work, EqSystems.post_iter_work,
    algLoopTrace_eq_range_map, algLoopTrace_eq_range_map,
    sysLoopTrace_eq_join, depLoopTrace_eq_map, convLoopTrace_eq_map,
    specSolveUpdateOrder]

/-! Claim C8: `EquationSystems::provide_system_norm`.  The fold starts from
the sentinel `-1.0e16`, so for a collection whose scaled norms all lie below
the sentinel the function returns the sentinel, not the maximum norm. -/

/-- A collection with a single system whose scaled norm is below the
`-1.0e16` sentinel of `provide_system_norm`. -/
def esNormCex : EqSystems :=
  { systems := [{ converged := true, scaledNorm := -20000000000000000,
                  numBcDataAlg := 0 }],
    hasOverset := false, numPreIterAlg := 0, numPostIterAlg := 0 }

/-- C8 counterexample: on a collection whose only owned system reports scaled
norm `-2.0e16`, `provide_system_norm` returns the sentinel `-1.0e16`, which is
not the maximum (`-2.0e16`) of the scaled norms of the owned systems. -/
theorem provide_system_norm_not_always_max :
    (∀ s ∈ esNormCex.systems, s.scaledNorm = -20000000000000000)
      ∧ esNormCex.provide_system_norm = -10000000000000000
      ∧ esNormCex.provide_system_norm ≠ -20000000000000000 := by
  refine ⟨?_, ?_, ?_⟩
  · intro s hs
    simp only [esNormCex, List.mem_singleton] at hs
    rw [hs]
  · show maxLoop _ _ = _
    norm_num [esNormCex, maxLoop]
  · show maxLoop _ _ ≠ _
    norm_num [esNormCex, maxLoop]

theorem maxLoop_ge_init (l : List EqSys) (m : ℚ) : m ≤ maxLoop l m := by
  induction l generalizing m with
  | nil => exact le_refl m
  | cons s rest ih => exact le_trans (le_max_left m s.scaledNorm) (ih _)

theorem maxLoop_ge_mem (l : List EqSys) :
    ∀ (m : ℚ) (s : EqSys), s ∈ l → s.scaledNorm ≤ maxLoop l m := by
  induction l with
  | nil => intro m s hs; cases hs
  | cons t rest ih =>
    intro m s hs
    rcases List.mem_cons.mp hs with h | h
    · subst h
      exact le_trans (le_max_right m s.scaledNorm) (maxLoop_ge_init rest _)
    · exact ih _ s h

theorem maxLoop_attained (l : List EqSys) (m : ℚ) :
    maxLoop l m = m ∨ ∃ s ∈ l, maxLoop l m = s.scaledNorm := by
  induction l generalizing m with
  | nil => exact Or.inl rfl
  | cons t rest ih =>
    rcases ih (max m t.scaledNorm) with h | ⟨s, hs, h⟩
    · rcases max_choice m t.scaledNorm with hm | hm
      · exact Or.inl (by rw [maxLoop, h, hm])
      · exact Or.inr ⟨t, List.mem_cons_self t rest, by rw [maxLoop, h, hm]⟩
    · exact Or.inr ⟨s, List.mem_cons_of_mem t hs, h⟩

/-- C8 amended: `provide_system_norm` returns the maximum of the sentinel
`-1.0e16` and all scaled norms; in particular, on a nonempty collection in
which every scaled norm is at least `-1.0e16` it returns the maximum of the
scaled norms of the owned systems (attained by one of them and bounding all
of them). -/
theorem provide_system_norm_is_max (es : EqSystems)
    (hne : es.systems ≠ [])
    (h : ∀ s ∈ es.systems, -10000000000000000 ≤ s.scaledNorm) :
    (∃ s ∈ es.systems, es.provide_system_norm = s.scaledNorm)
      ∧ ∀ s ∈ es.systems, s.scaledNorm ≤ es.provide_system_norm := by
  have hmem : ∀ s ∈ es.systems, s.scaledNorm ≤ es.provide_system_norm :=
    fun s hs => maxLoop_ge_mem es.systems _ s hs
  refine ⟨?_, hmem⟩
  rcases maxLoop_attained es.systems (-10000000000000000) with hinit | hat
  · obtain ⟨s0, rest, hsys⟩ : ∃ s0 rest, es.systems = s0 :: rest := by
      cases hx : es.systems with
      | nil => exact absurd hx hne
      | cons a b => exact ⟨a, b, rfl⟩
    have hs0 : s0 ∈ es.systems := by
      rw [hsys]; exact List.mem_cons_self s0 rest
    refine ⟨s0, hs0, le_antisymm ?_ (hmem s0 hs0)⟩
    show maxLoop es.systems (-10000000000000000) ≤ _
    rw [hinit]
    exact h s0 hs0
  · exact hat

/-- Concrete collection with scaled norms 0.2, 0.9 and 0.05 (the instance
named by the specification). -/
def esNormW : EqSystems :=
  { systems :=
      [{ converged := true, scaledNorm := 1/5, numBcDataAlg := 0 },
       { converged := true, scaledNorm := 9/10, numBcDataAlg := 0 },
       { converged := false, scaledNorm := 1/20, numBcDataAlg := 1 }],
    hasOverset := false, numPreIterAlg := 0, numPostIterAlg := 0 }

/-- Witness for the amended C8 theorem on the spec instance
{0.2, 0.9, 0.05}: the hypotheses hold and the returned value is 0.9. -/
theorem provide_system_norm_is_max_witness :
    (esNormW.systems ≠ []
        ∧ ∀ s ∈ esNormW.systems, (-10000000000000000 : ℚ) ≤ s.scaledNorm)
      ∧ ((∃ s ∈ esNormW.systems, esNormW.provide_system_norm = s.scaledNorm)
          ∧ ∀ s ∈ esNormW.systems, s.scaledNorm ≤ esNormW.provide_system_norm)
      ∧ esNormW.provide_system_norm = 9/10 := by
  refine ⟨⟨by decide, ?_⟩,
    provide_system_norm_is_max esNormW (by decide) ?_, ?_⟩
  · intro s hs
    fin_cases hs <;> norm_num
  · intro s hs
    fin_cases hs <;> norm_num
  · show maxLoop _ _ = _
    norm_num [esNormW, maxLoop]

/-! Claim C10: `EquationSystems::post_external_data_transfer_work` calls each
system hook once per entry of that system `bcDataAlg_` list. -/

theorem countOcc_bcAlgLoop (s t : EqSys) (n : Nat) :
    countOcc (Event.postExtDataTransfer s) (bcAlgLoopTrace t n)
      = if t = s then n else 0 := by
  induction n with
  | zero => by_cases h : t = s <;> simp [bcAlgLoopTrace, countOcc, h]
  | succ n ih =>
    rw [bcAlgLoopTrace, countOcc_append, ih]
    by_cases h : t = s <;> simp [countOcc, h]

theorem countOcc_pedLoop_zero (s : EqSys) (l : List EqSys)
    (h : countOcc s l = 0) :
    countOcc (Event.postExtDataTransfer s) (pedLoopTrace l) = 0 := by
  induction l with
  | nil => rfl
  | cons t rest ih =>
    rw [countOcc] at h
    by_cases ht : t = s
    · simp [ht] at h
    · rw [pedLoopTrace, countOcc_append, countOcc_bcAlgLoop, if_neg ht,
        ih (by simpa [ht] using h)]

theorem countOcc_pedLoop_one (s : EqSys) (l : List EqSys)
    (h : countOcc s l = 1) :
    countOcc (Event.postExtDataTransfer s) (pedLoopTrace l)
      = s.numBcDataAlg := by
  induction l with
  | nil => rw [countOcc] at h; cases h
  | cons t rest ih =>
    rw [countOcc] at h
    rw [pedLoopTrace, countOcc_append, countOcc_bcAlgLoop]
    by_cases ht : t = s
    · subst ht
      rw [if_pos rfl] at h
      have hres : countOcc t rest = 0 := by omega
      rw [if_pos rfl, countOcc_pedLoop_zero t rest hres]
      omega
    · rw [if_neg ht] at h
      have h1 : countOcc s rest = 1 := by omega
      rw [if_neg ht, ih h1]
      omega

/-- C10: for a system `s` owned exactly once by the collection, one call to
`EquationSystems::post_external_data_transfer_work` invokes the
`post_external_data_transfer_work` hook of `s` exactly `s.numBcDataAlg` times
(the size of its `bcDataAlg_` list): zero times when the list is empty and
several times when it has several entries, rather than exactly once. -/
theorem post_external_data_transfer_per_bc_alg (es : EqSystems) (s : EqSys)
    (h : countOcc s es.systems = 1) :
    countOcc (Event.postExtDataTransfer s)
        es.post_external_data_transfer_work = s.numBcDataAlg :=
  countOcc_pedLoop_one s es.systems h

/-- Collection for the C10 witness: the first system has an empty
`bcDataAlg_` list, the second has two entries. -/
def esPed : EqSystems :=
  { systems :=
      [{ converged := true, scaledNorm := 0, numBcDataAlg := 0 },
       { converged := false, scaledNorm := 0, numBcDataAlg := 2 }],
    hasOverset := false, numPreIterAlg := 0, numPostIterAlg := 0 }

/-- The second system of the C10 witness collection. -/
def sPed : EqSys := { converged := false, scaledNorm := 0, numBcDataAlg := 2 }

/-- Witness for C10: in the concrete collection the hook of the system with
two boundary-condition data algorithms is invoked exactly twice. -/
theorem post_external_data_transfer_per_bc_alg_witness :
    countOcc sPed esPed.systems = 1
      ∧ countOcc (Event.postExtDataTransfer sPed)
          esPed.post_external_data_transfer_work = 2 :=
  ⟨by decide, (post_external_data_transfer_per_bc_alg esPed sPed (by decide))⟩

/-! Model of the mesh metadata consumed by the `register_*_bc` family of
`EquationSystems`: named parts, each with a list of topological subset parts
carrying a primary entity rank and a topology. -/

/-- A subset part as used by the boundary-condition registration loops:
`primary_entity_rank()` and `topology()` (topologies are abstracted to an
identifier, since the orchestrator only passes them through). -/
structure SubPart where
  rank : Nat
  topoId : Nat
  deriving DecidableEq

/-- A named mesh part as returned by `MetaData::get_part`: the
boundary-condition registration code only consumes its `subsets()`. -/
structure MPart where
  subsets : List SubPart
  deriving DecidableEq

/-- The slice of `stk::mesh::MetaData` the registration code consumes: the
name-to-part map and `side_rank()`. -/
structure MetaDataM where
  parts : List (String × MPart)
  sideRank : Nat
  deriving DecidableEq

/-- `meta_data.get_part(name)`: `nullptr` becomes `none`. -/
def metaGetPart (meta : MetaDataM) (nm : String) : Option MPart :=
  (meta.parts.find? (fun pr => pr.1 == nm)).map (fun pr => pr.2)

/-- Which member of the `register_*_bc` family emitted an event. -/
inductive BCKind where
  | wallK | inflowK | openK | symmetryK | abltopK | periodicK | nonConfK
  deriving DecidableEq

/-- The fatal errors (`throw std::runtime_error`) of the registration
family, by the message thrown in the source. -/
inductive BCError where
  | symmetryFatal
  | abltopFatal
  | equationSystemsFatal
  | nonConformalFatal
  | nullPartCrash
  deriving DecidableEq

/-- Collaborator calls and rank-0 log lines emitted by the registration
family. -/
inductive BCEvent where
  | logUnknownPart (k : BCKind) (nm : String)
  | logNotFace (k : BCKind) (nm : String)
  | realmRegister (k : BCKind) (p : SubPart)
  | sysRegister (k : BCKind) (i : Nat) (p : SubPart)
  | logSubsetSizeMismatch
  | logSubsetActive
  | realmRegisterPeriodic (mn sn : String) (tol : ℚ) (method : String)
  | logNotFacePart (k : BCKind) (p : SubPart)
  | realmSetupNonConformal (cur opp : List (Option MPart))
  deriving DecidableEq

/-- The per-equation-system forwarding loop
`for (ii = equationSystemVector_.begin(); ...)` of the registration family:
the systems are identified by their registration index `0, ..., n-1`. -/
def sysRegLoop (k : BCKind) (p : SubPart) : Nat → List BCEvent
  | 0 => []
  | n + 1 => sysRegLoop k p n ++ [BCEvent.sysRegister k n p]

/-- The subset loop shared by `EquationSystems::register_wall_bc`,
`register_inflow_bc` and `register_open_bc` (textually identical in the
source up to the boundary-condition kind): a subset that is not of side rank
is only logged and skipped; otherwise the part is forwarded to the realm and
then to every owned equation system in registration order. -/
def bcSubLoopLogged (k : BCKind) (meta : MetaDataM) (n : Nat) (nm : String) :
    List SubPart → List BCEvent
  | [] => []
  | p :: rest =>
    if p.rank = meta.sideRank then
      (BCEvent.realmRegister k p :: sysRegLoop k p n)
        ++ bcSubLoopLogged k meta n nm rest
    else
      BCEvent.logNotFace k nm :: bcSubLoopLogged k meta n nm rest

/-- The subset loop shared by `EquationSystems::register_symmetry_bc` and
`register_abltop_bc`: a subset that is not of side rank is logged and then a
`std::runtime_error` is thrown, aborting the loop; otherwise realm first,
then every owned equation system in registration order. -/
def bcSubLoopFatal (k : BCKind) (e : BCError) (meta : MetaDataM) (n : Nat)
    (nm : String) : List SubPart → List BCEvent × Option BCError
  | [] => ([], none)
  | p :: rest =>
    if p.rank = meta.sideRank then
      ((BCEvent.realmRegister k p :: sysRegLoop k p n)
          ++ (bcSubLoopFatal k e meta n nm rest).1,
        (bcSubLoopFatal k e meta n nm rest).2)
    else
      ([BCEvent.logNotFace k nm], some e)

/-- `EquationSystems::register_wall_bc` (lines 949-980): an unknown part is
only logged on the rank-0 stream; no exception is thrown. -/
def register_wall_bc (meta : MetaDataM) (n : Nat) (targetName : String) :
    List BCEvent × Option BCError :=
  match metaGetPart meta targetName with
  | none => ([BCEvent.logUnknownPart BCKind.wallK targetName], none)
  | some tp => (bcSubLoopLogged BCKind.wallK meta n targetName tp.subsets, none)

/-- `EquationSystems::register_inflow_bc` (lines 985-1015): same shape as
`register_wall_bc`. -/
def register_inflow_bc (meta : MetaDataM) (n : Nat) (targetName : String) :
    List BCEvent × Option BCError :=
  match metaGetPart meta targetName with
  | none => ([BCEvent.logUnknownPart BCKind.inflowK targetName], none)
  | some tp =>
    (bcSubLoopLogged BCKind.inflowK meta n targetName tp.subsets, none)

/-- `EquationSystems::register_open_bc` (lines 1020-1049): same shape as
`register_wall_bc`. -/
def register_open_bc (meta : MetaDataM) (n : Nat) (targetName : String) :
    List BCEvent × Option BCError :=
  match metaGetPart meta targetName with
  | none => ([BCEvent.logUnknownPart BCKind.openK targetName], none)
  | some tp =>
    (bcSubLoopLogged BCKind.openK meta n targetName tp.subsets, none)

/-- `EquationSystems::register_symmetry_bc` (lines 1054-1086): an unknown
part is logged and then `throw std::runtime_error("Symmetry::fatal_error()")`;
a subset of wrong rank likewise aborts. -/
def register_symmetry_bc (meta : MetaDataM) (n : Nat) (targetName : String) :
    List BCEvent × Option BCError :=
  match metaGetPart meta targetName with
  | none =>
    ([BCEvent.logUnknownPart BCKind.symmetryK targetName],
      some BCError.symmetryFatal)
  | some tp =>
    bcSubLoopFatal BCKind.symmetryK BCError.symmetryFatal meta n targetName
      tp.subsets

/-- `EquationSystems::register_abltop_bc` (lines 1091-1122): same shape as
`register_symmetry_bc` with message `"ABLTop::fatal_error()"`. -/
def register_abltop_bc (meta : MetaDataM) (n : Nat) (targetName : String) :
    List BCEvent × Option BCError :=
  match metaGetPart meta targetName with
  | none =>
    ([BCEvent.logUnknownPart BCKind.abltopK targetName],
      some BCError.abltopFatal)
  | some tp =>
    bcSubLoopFatal BCKind.abltopK BCError.abltopFatal meta n targetName
      tp.subsets

/-- The user data consumed by `register_periodic_bc`. -/
structure PeriodicBCDataM where
  searchTolerance : ℚ
  searchMethodName : String
  deriving DecidableEq

/-- `EquationSystems::register_periodic_bc` (lines 1127-1169): an
unresolvable master or slave part name is fatal
(`"EquationSystems::fatal_error()"`); a subset-count mismatch between master
and slave is only logged; registration is forwarded to the realm only, with
no per-equation-system loop. -/
def register_periodic_bc (meta : MetaDataM) (n : Nat)
    (masterName slaveName : String) (d : PeriodicBCDataM) :
    List BCEvent × Option BCError :=
  match metaGetPart meta masterName with
  | none =>
    ([BCEvent.logUnknownPart BCKind.periodicK masterName],
      some BCError.equationSystemsFatal)
  | some mp =>
    match metaGetPart meta slaveName with
    | none =>
      ([BCEvent.logUnknownPart BCKind.periodicK slaveName],
        some BCError.equationSystemsFatal)
    | some sp =>
      ((if mp.subsets.length ≠ sp.subsets.length
          then [BCEvent.logSubsetSizeMismatch] else [])
        ++ (if 1 < mp.subsets.length then [BCEvent.logSubsetActive] else [])
        ++ [BCEvent.realmRegisterPeriodic masterName slaveName
              d.searchTolerance d.searchMethodName],
        none)

/-- The data consumed by `register_non_conformal_bc`: the current and
opposing part-name vectors. -/
structure NonConformalBCDataM where
  currentPartNames : List String
  opposingPartNames : List String
  deriving DecidableEq

/-- The part-vector resolution loops of
`EquationSystems::register_non_conformal_bc` (lines 1181-1204): each name is
looked up; an unresolved name is only logged on the rank-0 stream and the
null part is still pushed onto the vector (no throw). -/
def resolvePartVec (meta : MetaDataM) : List String → List BCEvent × List (Option MPart)
  | [] => ([], [])
  | nm :: rest =>
    ((match metaGetPart meta nm with
        | none => [BCEvent.logUnknownPart BCKind.nonConfK nm]
        | some _ => [])
      ++ (resolvePartVec meta rest).1,
      metaGetPart meta nm :: (resolvePartVec meta rest).2)

/-- The subset loop of `register_non_conformal_bc` over one current part
(lines 1214-1231): a subset that is not of side rank is logged (by its own
part name) and `throw std::runtime_error("NonConformal::fatal_error()")`
aborts; otherwise the part is forwarded to the realm and then to every owned
equation system in registration order. -/
def ncSubLoop (meta : MetaDataM) (n : Nat) : List SubPart → List BCEvent × Option BCError
  | [] => ([], none)
  | p :: rest =>
    if p.rank = meta.sideRank then
      ((BCEvent.realmRegister BCKind.nonConfK p :: sysRegLoop BCKind.nonConfK p n)
          ++ (ncSubLoop meta n rest).1,
        (ncSubLoop meta n rest).2)
    else
      ([BCEvent.logNotFacePart BCKind.nonConfK p], some BCError.nonConformalFatal)

/-- The outer loop of `register_non_conformal_bc` over the resolved current
part vector (lines 1212-1232): the source dereferences each vector entry
(`currentMeshPartVec[k]->subsets()`), so a null entry — pushed for an
unresolved name — crashes there; the crash is modelled as the
`nullPartCrash` failure.  A throw inside the subset loop aborts the
remaining outer iterations. -/
def ncOuterLoop (meta : MetaDataM) (n : Nat) : List (Option MPart) → List BCEvent × Option BCError
  | [] => ([], none)
  | none :: _ => ([], some BCError.nullPartCrash)
  | some tp :: rest =>
    ((ncSubLoop meta n tp.subsets).1
        ++ (if (ncSubLoop meta n tp.subsets).2 = none
            then (ncOuterLoop meta n rest).1 else []),
      if (ncSubLoop meta n tp.subsets).2 = none
        then (ncOuterLoop meta n rest).2
        else (ncSubLoop meta n tp.subsets).2)

/-- `EquationSystems::register_non_conformal_bc` (lines 1174-1233): resolve
the current part vector, then the opposing part vector (unknown names logged
only, null parts pushed), call `realm_.setup_non_conformal_bc` with both
vectors, then run the subset pass over the current vector. -/
def register_non_conformal_bc (meta : MetaDataM) (n : Nat)
    (d : NonConformalBCDataM) : List BCEvent × Option BCError :=
  ((resolvePartVec meta d.currentPartNames).1
      ++ (resolvePartVec meta d.opposingPartNames).1
      ++ BCEvent.realmSetupNonConformal
          (resolvePartVec meta d.currentPartNames).2
          (resolvePartVec meta d.opposingPartNames).2
        :: (ncOuterLoop meta n (resolvePartVec meta d.currentPartNames).2).1,
    (ncOuterLoop meta n (resolvePartVec meta d.currentPartNames).2).2)

/-! Claim C3: fatality of the `register_*_bc` family.  In the source only
`register_symmetry_bc` and `register_abltop_bc` throw on an unknown part or a
wrong-rank subset; `register_wall_bc`, `register_inflow_bc` and
`register_open_bc` merely log the condition and continue. -/

/-- Concrete metadata for the C3 counterexample: a mesh with one side-rank
part named `wall_bc`; the name `ghost` resolves to no part. -/
def metaCex : MetaDataM :=
  { parts := [("wall_bc", { subsets := [{ rank := 2, topoId := 7 }] })],
    sideRank := 2 }

/-- C3 counterexample: `register_wall_bc` on the nonexistent part name
`ghost` does not fail fatally — it returns normally with no error, emitting
only the rank-0 log line — refuting the claim that every member of the
`register_*_bc` family aborts with UnknownPart on a missing part. -/
theorem register_wall_bc_unknown_part_not_fatal :
    metaGetPart metaCex "ghost" = none
      ∧ register_wall_bc metaCex 3 "ghost"
          = ([BCEvent.logUnknownPart BCKind.wallK "ghost"], none)
      ∧ (register_wall_bc metaCex 3 "ghost").2 = none := by
  refine ⟨rfl, rfl, rfl⟩

/-- Specification-side order of forwarding for one boundary condition
(written from the words of the spec, for comparison with the source loops):
for every subset, first the realm collaborator, then every owned equation
system in registration order `0, ..., n-1`. -/
def specForwardOrder (k : BCKind) (n : Nat) : List SubPart → List BCEvent
  | [] => []
  | p :: rest =>
    (BCEvent.realmRegister k p
        :: (List.range n).map (fun i => BCEvent.sysRegister k i p))
      ++ specForwardOrder k n rest

theorem sysRegLoop_eq_range_map (k : BCKind) (p : SubPart) (n : Nat) :
    sysRegLoop k p n = (List.range n).map (fun i => BCEvent.sysRegister k i p) := by
  induction n with
  | zero => rfl
  | succ n ih => rw [sysRegLoop, ih, List.range_succ]; simp

theorem bcSubLoopLogged_all_side (k : BCKind) (meta : MetaDataM) (n : Nat)
    (nm : String) (subs : List SubPart)
    (h : ∀ p ∈ subs, p.rank = meta.sideRank) :
    bcSubLoopLogged k meta n nm subs = specForwardOrder k n subs := by
  induction subs with
  | nil => rfl
  | cons p rest ih =>
    rw [bcSubLoopLogged, if_pos (h p (List.mem_cons_self p rest)),
      specForwardOrder, sysRegLoop_eq_range_map,
      ih (fun q hq => h q (List.mem_cons_of_mem p hq))]

theorem bcSubLoopFatal_all_side (k : BCKind) (e : BCError) (meta : MetaDataM)
    (n : Nat) (nm : String) (subs : List SubPart)
    (h : ∀ p ∈ subs, p.rank = meta.sideRank) :
    bcSubLoopFatal k e meta n nm subs = (specForwardOrder k n subs, none) := by
  induction subs with
  | nil => rfl
  | cons p rest ih =>
    rw [bcSubLoopFatal, if_pos (h p (List.mem_cons_self p rest)),
      ih (fun q hq => h q (List.mem_cons_of_mem p hq)),
      specForwardOrder, sysRegLoop_eq_range_map]

theorem bcSubLoopFatal_bad_subset (k : BCKind) (e : BCError) (meta : MetaDataM)
    (n : Nat) (nm : String) (pre : List SubPart) (p : SubPart)
    (rest : List SubPart) (hpre : ∀ q ∈ pre, q.rank = meta.sideRank)
    (hp : p.rank ≠ meta.sideRank) :
    (bcSubLoopFatal k e meta n nm (pre ++ p :: rest)).2 = some e := by
  induction pre with
  | nil => rw [List.nil_append, bcSubLoopFatal, if_neg hp]
  | cons q pre ih =>
    rw [List.cons_append, bcSubLoopFatal,
      if_pos (hpre q (List.mem_cons_self q pre))]
    exact ih (fun r hr => hpre r (List.mem_cons_of_mem q hr))

theorem resolvePartVec_snd (meta : MetaDataM) (names : List String) :
    (resolvePartVec meta names).2 = names.map (metaGetPart meta) := by
  induction names with
  | nil => rfl
  | cons nm rest ih =>
    show metaGetPart meta nm :: (resolvePartVec meta rest).2 = _
    rw [List.map_cons, ih]

theorem resolvePartVec_log_mem (meta : MetaDataM) (names : List String)
    (nm : String) (hmem : nm ∈ names) (hnone : metaGetPart meta nm = none) :
    BCEvent.logUnknownPart BCKind.nonConfK nm ∈ (resolvePartVec meta names).1 := by
  induction names with
  | nil => cases hmem
  | cons q rest ih =>
    rw [resolvePartVec]
    rcases List.mem_cons.mp hmem with h | h
    · subst h
      rw [hnone]
      exact List.mem_append.mpr (Or.inl (List.mem_singleton.mpr rfl))
    · exact List.mem_append.mpr (Or.inr (ih h))

theorem ncSubLoop_err_only (meta : MetaDataM) (n : Nat) (subs : List SubPart)
    (e : BCError) (h : (ncSubLoop meta n subs).2 = some e) :
    e = BCError.nonConformalFatal := by
  induction subs with
  | nil => simp [ncSubLoop] at h
  | cons p rest ih =>
    rw [ncSubLoop] at h
    by_cases hr : p.rank = meta.sideRank
    · rw [if_pos hr] at h
      exact ih h
    · rw [if_neg hr] at h
      exact (Option.some.inj h).symm

theorem ncSubLoop_all_side (meta : MetaDataM) (n : Nat) (subs : List SubPart)
    (h : ∀ p ∈ subs, p.rank = meta.sideRank) :
    ncSubLoop meta n subs = (specForwardOrder BCKind.nonConfK n subs, none) := by
  induction subs with
  | nil => rfl
  | cons p rest ih =>
    rw [ncSubLoop, if_pos (h p (List.mem_cons_self p rest)),
      ih (fun q hq => h q (List.mem_cons_of_mem p hq)),
      specForwardOrder, sysRegLoop_eq_range_map]

theorem ncSubLoop_bad_subset (meta : MetaDataM) (n : Nat) (pre : List SubPart)
    (p : SubPart) (rest : List SubPart)
    (hpre : ∀ q ∈ pre, q.rank = meta.sideRank)
    (hp : p.rank ≠ meta.sideRank) :
    (ncSubLoop meta n (pre ++ p :: rest)).2 = some BCError.nonConformalFatal := by
  induction pre with
  | nil => rw [List.nil_append, ncSubLoop, if_neg hp]
  | cons q pre ih =>
    rw [List.cons_append, ncSubLoop,
      if_pos (hpre q (List.mem_cons_self q pre))]
    exact ih (fun r hr => hpre r (List.mem_cons_of_mem q hr))

theorem ncOuterLoop_err_only (meta : MetaDataM) (n : Nat)
    (l : List (Option MPart)) (e : BCError)
    (h : (ncOuterLoop meta n l).2 = some e) :
    e = BCError.nullPartCrash ∨ e = BCError.nonConformalFatal := by
  induction l with
  | nil => simp [ncOuterLoop] at h
  | cons o rest ih =>
    cases o with
    | none =>
      rw [ncOuterLoop] at h
      exact Or.inl (Option.some.inj h).symm
    | some tp =>
      rw [ncOuterLoop] at h
      by_cases hs : (ncSubLoop meta n tp.subsets).2 = none
      · rw [if_pos hs, if_pos hs] at h
        exact ih h
      · rw [if_neg hs, if_neg hs] at h
        exact Or.inr (ncSubLoop_err_only meta n tp.subsets e h)

theorem ncOuterLoop_all_clean (meta : MetaDataM) (n : Nat)
    (parts : List MPart)
    (h : ∀ tp ∈ parts, ∀ p ∈ tp.subsets, p.rank = meta.sideRank) :
    ncOuterLoop meta n (parts.map some)
      = ((parts.map (fun tp =>
            specForwardOrder BCKind.nonConfK n tp.subsets)).flatten, none) := by
  induction parts with
  | nil => rfl
  | cons tp parts ih =>
    have hsub := ncSubLoop_all_side meta n tp.subsets
      (h tp (List.mem_cons_self tp parts))
    rw [List.map_cons, ncOuterLoop, hsub,
      ih (fun q hq => h q (List.mem_cons_of_mem tp hq))]
    simp

theorem ncOuterLoop_bad (meta : MetaDataM) (n : Nat)
    (preParts : List (Option MPart)) (tp : MPart)
    (restParts : List (Option MPart)) (pre : List SubPart) (p : SubPart)
    (rest : List SubPart)
    (hpreClean : ∀ o ∈ preParts,
      ∃ tq, o = some tq ∧ ∀ q ∈ tq.subsets, q.rank = meta.sideRank)
    (hsubs : tp.subsets = pre ++ p :: rest)
    (hpreSub : ∀ q ∈ pre, q.rank = meta.sideRank)
    (hp : p.rank ≠ meta.sideRank) :
    (ncOuterLoop meta n (preParts ++ some tp :: restParts)).2
      = some BCError.nonConformalFatal := by
  induction preParts with
  | nil =>
    rw [List.nil_append, ncOuterLoop]
    have hbad : (ncSubLoop meta n tp.subsets).2
        = some BCError.nonConformalFatal := by
      rw [hsubs]
      exact ncSubLoop_bad_subset meta n pre p rest hpreSub hp
    have hne : ¬((ncSubLoop meta n tp.subsets).2 = none) := by
      rw [hbad]
      simp
    rw [if_neg hne, if_neg hne]
    exact hbad
  | cons o preParts ih =>
    obtain ⟨tq, rfl, hclean⟩ := hpreClean o (List.mem_cons_self o preParts)
    rw [List.cons_append, ncOuterLoop]
    have hnone : (ncSubLoop meta n tq.subsets).2 = none := by
      rw [ncSubLoop_all_side meta n tq.subsets hclean]
    rw [if_pos hnone, if_pos hnone]
    exact ih (fun r hr => hpreClean r (List.mem_cons_of_mem _ hr))

/-- C3 amended: within the `register_*_bc` family the fatal behavior splits
by operation rather than holding uniformly: `register_symmetry_bc` and
`register_abltop_bc` fail fatally both when the named part does not exist and
when a topological subset of the resolved part lacks side entity rank;
`register_wall_bc`, `register_inflow_bc` and `register_open_bc` merely log
those conditions on the rank-0 stream (skipping the missing target or the
offending subset) and return without error; `register_non_conformal_bc` logs
an unresolved part name during part-vector resolution without an immediate
UnknownPart abort (the null part is pushed, and the only failures of the
operation are the later null-part dereference and the wrong-rank throw), but
it does fail fatally (NonConformal fatal error) when a subset of a resolved
current part lacks side entity rank; for every subset passing the side-rank
check, each operation forwards the resolved part and topology first to the
realm collaborator and then to every owned equation system in registration
order. -/
theorem register_bc_family_fatality (meta : MetaDataM) (n : Nat)
    (nm : String) :
    (metaGetPart meta nm = none →
        register_wall_bc meta n nm
            = ([BCEvent.logUnknownPart BCKind.wallK nm], none)
          ∧ register_inflow_bc meta n nm
            = ([BCEvent.logUnknownPart BCKind.inflowK nm], none)
          ∧ register_open_bc meta n nm
            = ([BCEvent.logUnknownPart BCKind.openK nm], none)
          ∧ register_symmetry_bc meta n nm
            = ([BCEvent.logUnknownPart BCKind.symmetryK nm],
                some BCError.symmetryFatal)
          ∧ register_abltop_bc meta n nm
            = ([BCEvent.logUnknownPart BCKind.abltopK nm],
                some BCError.abltopFatal))
      ∧ (∀ tp, metaGetPart meta nm = some tp →
          (∀ p ∈ tp.subsets, p.rank = meta.sideRank) →
            register_wall_bc meta n nm
                = (specForwardOrder BCKind.wallK n tp.subsets, none)
              ∧ register_inflow_bc meta n nm
                = (specForwardOrder BCKind.inflowK n tp.subsets, none)
              ∧ register_open_bc meta n nm
                = (specForwardOrder BCKind.openK n tp.subsets, none)
              ∧ register_symmetry_bc meta n nm
                = (specForwardOrder BCKind.symmetryK n tp.subsets, none)
              ∧ register_abltop_bc meta n nm
                = (specForwardOrder BCKind.abltopK n tp.subsets, none))
      ∧ (∀ tp pre p rest, metaGetPart meta nm = some tp →
          tp.subsets = pre ++ p :: rest →
          (∀ q ∈ pre, q.rank = meta.sideRank) →
          p.rank ≠ meta.sideRank →
            (register_wall_bc meta n nm).2 = none
              ∧ (register_inflow_bc meta n nm).2 = none
              ∧ (register_open_bc meta n nm).2 = none
              ∧ (register_symmetry_bc meta n nm).2
                  = some BCError.symmetryFatal
              ∧ (register_abltop_bc meta n nm).2
                  = some BCError.abltopFatal)
      ∧ (∀ d : NonConformalBCDataM,
          ((resolvePartVec meta d.currentPartNames).2
              = d.currentPartNames.map (metaGetPart meta))
            ∧ (∀ pn ∈ d.currentPartNames, metaGetPart meta pn = none →
                BCEvent.logUnknownPart BCKind.nonConfK pn
                  ∈ (register_non_conformal_bc meta n d).1)
            ∧ (∀ e, (register_non_conformal_bc meta n d).2 = some e →
                e = BCError.nullPartCrash ∨ e = BCError.nonConformalFatal)
            ∧ (∀ parts : List MPart,
                (resolvePartVec meta d.currentPartNames).2 = parts.map some →
                (∀ tp ∈ parts, ∀ p ∈ tp.subsets, p.rank = meta.sideRank) →
                  (register_non_conformal_bc meta n d).2 = none
                    ∧ (register_non_conformal_bc meta n d).1
                      = (resolvePartVec meta d.currentPartNames).1
                        ++ (resolvePartVec meta d.opposingPartNames).1
                        ++ BCEvent.realmSetupNonConformal
                            (resolvePartVec meta d.currentPartNames).2
                            (resolvePartVec meta d.opposingPartNames).2
                          :: (parts.map (fun tp =>
                              specForwardOrder BCKind.nonConfK n
                                tp.subsets)).flatten)
            ∧ (∀ (preParts : List (Option MPart)) (tp : MPart)
                  (restParts : List (Option MPart)) (pre : List SubPart)
                  (p : SubPart) (rest : List SubPart),
                (resolvePartVec meta d.currentPartNames).2
                    = preParts ++ some tp :: restParts →
                (∀ o ∈ preParts, ∃ tq, o = some tq
                    ∧ ∀ q ∈ tq.subsets, q.rank = meta.sideRank) →
                tp.subsets = pre ++ p :: rest →
                (∀ q ∈ pre, q.rank = meta.sideRank) →
                p.rank ≠ meta.sideRank →
                  (register_non_conformal_bc meta n d).2
                    = some BCError.nonConformalFatal)) := by
  refine ⟨?_, ?_, ?_, ?_⟩
  · intro h
    refine ⟨?_, ?_, ?_, ?_, ?_⟩ <;>
      simp [register_wall_bc, register_inflow_bc, register_open_bc,
        register_symmetry_bc, register_abltop_bc, h]
  · intro tp htp hall
    refine ⟨?_, ?_, ?_, ?_, ?_⟩ <;>
      simp [register_wall_bc, register_inflow_bc, register_open_bc,
        register_symmetry_bc, register_abltop_bc, htp,
        bcSubLoopLogged_all_side _ _ _ _ _ hall,
        bcSubLoopFatal_all_side _ _ _ _ _ _ hall]
  · intro tp pre p rest htp hsubs hpre hp
    have hwall : (register_wall_bc meta n nm).2 = none := by
      rw [register_wall_bc, htp]
    have hinflow : (register_inflow_bc meta n nm).2 = none := by
      rw [register_inflow_bc, htp]
    have hopen : (register_open_bc meta n nm).2 = none := by
      rw [register_open_bc, htp]
    have hsym : (register_symmetry_bc meta n nm).2
        = some BCError.symmetryFatal := by
      rw [register_symmetry_bc, htp]
      show (bcSubLoopFatal BCKind.symmetryK BCError.symmetryFatal meta n nm
          tp.subsets).2 = some BCError.symmetryFatal
      rw [hsubs]
      exact bcSubLoopFatal_bad_subset _ _ _ _ _ _ _ _ hpre hp
    have habl : (register_abltop_bc meta n nm).2
        = some BCError.abltopFatal := by
      rw [register_abltop_bc, htp]
      show (bcSubLoopFatal BCKind.abltopK BCError.abltopFatal meta n nm
          tp.subsets).2 = some BCError.abltopFatal
      rw [hsubs]
      exact bcSubLoopFatal_bad_subset _ _ _ _ _ _ _ _ hpre hp
    exact ⟨hwall, hinflow, hopen, hsym, habl⟩
  · intro d
    refine ⟨resolvePartVec_snd meta d.currentPartNames, ?_, ?_, ?_, ?_⟩
    · intro pn hmem hnone
      exact List.mem_append.mpr (Or.inl (List.mem_append.mpr (Or.inl
        (resolvePartVec_log_mem meta d.currentPartNames pn hmem hnone))))
    · intro e he
      exact ncOuterLoop_err_only meta n
        (resolvePartVec meta d.currentPartNames).2 e he
    · intro parts hres hclean
      constructor
      · show (ncOuterLoop meta n (resolvePartVec meta d.currentPartNames).2).2
            = none
        rw [hres, ncOuterLoop_all_clean meta n parts hclean]
      · show (resolvePartVec meta d.currentPartNames).1
            ++ (resolvePartVec meta d.opposingPartNames).1
            ++ BCEvent.realmSetupNonConformal
                (resolvePartVec meta d.currentPartNames).2
                (resolvePartVec meta d.opposingPartNames).2
              :: (ncOuterLoop meta n
                  (resolvePartVec meta d.currentPartNames).2).1 = _
        rw [hres, ncOuterLoop_all_clean meta n parts hclean]
    · intro preParts tp restParts pre p rest hres hpreClean hsubs hpreSub hp
      show (ncOuterLoop meta n (resolvePartVec meta d.currentPartNames).2).2
          = some BCError.nonConformalFatal
      rw [hres]
      exact ncOuterLoop_bad meta n preParts tp restParts pre p rest
        hpreClean hsubs hpreSub hp

/-- Concrete metadata for the C3 witness: `inlet` resolves with two side-rank
subsets, `mixed` resolves with a non-side-rank subset in second position, and
`ghost` resolves to no part (side rank is 2). -/
def metaFam : MetaDataM :=
  { parts :=
      [("inlet", { subsets := [⟨2, 4⟩, ⟨2, 5⟩] }),
       ("mixed", { subsets := [⟨2, 4⟩, ⟨3, 9⟩, ⟨2, 5⟩] })],
    sideRank := 2 }

/-- Non-conformal data for the C3 witness: the current part `mixed` carries a
wrong-rank subset. -/
def ncBad : NonConformalBCDataM :=
  { currentPartNames := ["mixed"], opposingPartNames := ["inlet"] }

/-- Non-conformal data for the C3 witness: the current part `inlet` is clean;
the opposing name `ghost` does not resolve. -/
def ncClean : NonConformalBCDataM :=
  { currentPartNames := ["inlet"], opposingPartNames := ["ghost"] }

/-- Non-conformal data for the C3 witness: the current name `ghost` does not
resolve. -/
def ncGhost : NonConformalBCDataM :=
  { currentPartNames := ["ghost"], opposingPartNames := [] }

/-- Witness for the amended C3 theorem at concrete inputs: unknown part is
log-only for wall and fatal for symmetry; an all-side-rank part forwards realm
first then both systems; a wrong-rank subset is fatal for symmetry but not
for wall; non-conformal registration is fatal on a wrong-rank subset, clean
on side-rank subsets, and only logs an unresolved current name. -/
theorem register_bc_family_fatality_witness :
    register_wall_bc metaFam 2 "ghost"
        = ([BCEvent.logUnknownPart BCKind.wallK "ghost"], none)
      ∧ register_symmetry_bc metaFam 2 "ghost"
          = ([BCEvent.logUnknownPart BCKind.symmetryK "ghost"],
              some BCError.symmetryFatal)
      ∧ register_symmetry_bc metaFam 2 "inlet"
          = (specForwardOrder BCKind.symmetryK 2 [⟨2, 4⟩, ⟨2, 5⟩], none)
      ∧ (register_symmetry_bc metaFam 2 "mixed").2 = some BCError.symmetryFatal
      ∧ (register_wall_bc metaFam 2 "mixed").2 = none
      ∧ (register_non_conformal_bc metaFam 2 ncBad).2
          = some BCError.nonConformalFatal
      ∧ (register_non_conformal_bc metaFam 2 ncClean).2 = none
      ∧ BCEvent.logUnknownPart BCKind.nonConfK "ghost"
          ∈ (register_non_conformal_bc metaFam 2 ncGhost).1 := by
  have h1 := (register_bc_family_fatality metaFam 2 "ghost").1 rfl
  have h2 := (register_bc_family_fatality metaFam 2 "inlet").2.1
    { subsets := [⟨2, 4⟩, ⟨2, 5⟩] } rfl (by decide)
  have h3 := (register_bc_family_fatality metaFam 2 "mixed").2.2.1
    { subsets := [⟨2, 4⟩, ⟨3, 9⟩, ⟨2, 5⟩] } [⟨2, 4⟩] ⟨3, 9⟩ [⟨2, 5⟩]
    rfl rfl (by decide) (by decide)
  have h4 := ((register_bc_family_fatality metaFam 2 "unused").2.2.2
    ncBad).2.2.2.2 [] { subsets := [⟨2, 4⟩, ⟨3, 9⟩, ⟨2, 5⟩] } [] [⟨2, 4⟩]
    ⟨3, 9⟩ [⟨2, 5⟩] rfl (by simp) rfl (by decide) (by decide)
  have h5 := (((register_bc_family_fatality metaFam 2 "unused").2.2.2
    ncClean).2.2.2.1 [{ subsets := [⟨2, 4⟩, ⟨2, 5⟩] }] rfl (by decide)).1
  have h6 := ((register_bc_family_fatality metaFam 2 "unused").2.2.2
    ncGhost).2.1 "ghost" (by simp [ncGhost]) rfl
  exact ⟨h1.1, h1.2.2.2.1, h2.2.2.2.1, h3.2.2.2.1, h3.1, h4, h5, h6⟩

/-! Claim C7: `EquationSystems::register_periodic_bc`. -/

/-- C7: when both the master and the slave part names resolve,
`register_periodic_bc` never aborts — even with differing subset counts,
where it only emits the warning log line — and it forwards only to the realm
collaborator (the trace contains no per-equation-system `sysRegister` call);
an unresolvable master or slave part name is a fatal error. -/
theorem register_periodic_bc_realm_only (meta : MetaDataM) (n : Nat)
    (mn sn : String) (d : PeriodicBCDataM) :
    (∀ mp sp, metaGetPart meta mn = some mp → metaGetPart meta sn = some sp →
        (register_periodic_bc meta n mn sn d).2 = none
          ∧ (∀ e ∈ (register_periodic_bc meta n mn sn d).1,
              ∀ k i p, e ≠ BCEvent.sysRegister k i p)
          ∧ BCEvent.realmRegisterPeriodic mn sn d.searchTolerance
              d.searchMethodName ∈ (register_periodic_bc meta n mn sn d).1
          ∧ (mp.subsets.length ≠ sp.subsets.length →
              BCEvent.logSubsetSizeMismatch
                ∈ (register_periodic_bc meta n mn sn d).1))
      ∧ (metaGetPart meta mn = none →
          (register_periodic_bc meta n mn sn d).2
            = some BCError.equationSystemsFatal)
      ∧ (∀ mp, metaGetPart meta mn = some mp → metaGetPart meta sn = none →
          (register_periodic_bc meta n mn sn d).2
            = some BCError.equationSystemsFatal) := by
  refine ⟨?_, ?_, ?_⟩
  · intro mp sp hm hs
    refine ⟨?_, ?_, ?_, ?_⟩
    · simp [register_periodic_bc, hm, hs]
    · intro e he k i p
      simp only [register_periodic_bc, hm, hs] at he
      rcases List.mem_append.mp he with h | h
      · rcases List.mem_append.mp h with h1 | h1
        · by_cases hc : mp.subsets.length ≠ sp.subsets.length
          · rw [if_pos hc] at h1
            simp at h1
            subst h1
            simp
          · rw [if_neg hc] at h1
            simp at h1
        · by_cases hn : 1 < mp.subsets.length
          · rw [if_pos hn] at h1
            simp at h1
            subst h1
            simp
          · rw [if_neg hn] at h1
            simp at h1
      · simp at h
        subst h
        simp
    · simp [register_periodic_bc, hm, hs]
    · intro hmm
      simp [register_periodic_bc, hm, hs, hmm]
  · intro hm
    simp [register_periodic_bc, hm]
  · intro mp hm hs
    simp [register_periodic_bc, hm, hs]

/-- Concrete metadata for the C7 witness: master has two subsets, slave has
one (a subset-count mismatch), both resolve; `ghost` does not resolve. -/
def metaPer : MetaDataM :=
  { parts :=
      [("master", { subsets := [⟨2, 1⟩, ⟨2, 2⟩] }),
       ("slave", { subsets := [⟨2, 3⟩] })],
    sideRank := 2 }

/-- Periodic user data for the C7 witness. -/
def dPer : PeriodicBCDataM :=
  { searchTolerance := 1/10000, searchMethodName := "boost_rtree" }

/-- Witness for C7 at concrete inputs: mismatched subset counts do not abort
and forwarding stays realm-only; a missing master name is fatal. -/
theorem register_periodic_bc_realm_only_witness :
    (register_periodic_bc metaPer 3 "master" "slave" dPer).2 = none
      ∧ (∀ e ∈ (register_periodic_bc metaPer 3 "master" "slave" dPer).1,
          ∀ k i p, e ≠ BCEvent.sysRegister k i p)
      ∧ BCEvent.realmRegisterPeriodic "master" "slave" dPer.searchTolerance
          dPer.searchMethodName
          ∈ (register_periodic_bc metaPer 3 "master" "slave" dPer).1
      ∧ (register_periodic_bc metaPer 3 "ghost" "slave" dPer).2
          = some BCError.equationSystemsFatal := by
  have h := (register_periodic_bc_realm_only metaPer 3 "master" "slave"
    dPer).1 { subsets := [⟨2, 1⟩, ⟨2, 2⟩] } { subsets := [⟨2, 3⟩] } rfl rfl
  have h2 := (register_periodic_bc_realm_only metaPer 3 "ghost" "slave"
    dPer).2.1 rfl
  exact ⟨h.1, h.2.1, h.2.2.1, h2⟩

/-! Model of `EquationSystems::load` (src/include/EquationSystem.h, lines
667-792) for claims C5 and C6. -/

/-- The closed set of recognized equation-system kinds (the branches of the
if/else chain in `EquationSystems::load`). -/
inductive EqSysKind where
  | LowMachEOM | VolumeOfFluid | ShearStressTransport | ChienKEpsilon
  | WilcoxKOmega | TurbKineticEnergy | Enthalpy | HeatConduction | WallDistance
  deriving DecidableEq

/-- The kind-name dispatch of `EquationSystems::load`: the chain of
`expect_map(y_system, "...", true)` tests, in source order; no match falls
through to `throw std::runtime_error(... unknown equation system type)`. -/
def recognize (nm : String) : Option EqSysKind :=
  if nm = "LowMachEOM" then some EqSysKind.LowMachEOM
  else if nm = "VolumeOfFluid" then some EqSysKind.VolumeOfFluid
  else if nm = "ShearStressTransport" then some EqSysKind.ShearStressTransport
  else if nm = "ChienKEpsilon" then some EqSysKind.ChienKEpsilon
  else if nm = "WilcoxKOmega" then some EqSysKind.WilcoxKOmega
  else if nm = "TurbKineticEnergy" then some EqSysKind.TurbKineticEnergy
  else if nm = "Enthalpy" then some EqSysKind.Enthalpy
  else if nm = "HeatConduction" then some EqSysKind.HeatConduction
  else if nm = "WallDistance" then some EqSysKind.WallDistance
  else none

/-- One declaration of the `systems` sequence in the input document: its kind
name, and the optional overrides of the overset settings inside its own
declaration block (processed by the per-system `eqSys->load(y_eqsys)`). -/
structure EqSysDecl where
  kindName : String
  declDecoupled : Option Bool
  declNumOversetIters : Option Nat
  deriving DecidableEq

/-- The slice of the input document and realm state consumed by
`EquationSystems::load`: `realm_.query_for_overset()`, the optional global
`decoupled_overset_solve` and `num_overset_correctors` entries, and the
ordered `systems` sequence. -/
structure LoadConfig where
  hasOverset : Bool
  cfgDecoupled : Option Bool
  cfgNumOversetIters : Option Nat
  decls : List EqSysDecl
  deriving DecidableEq

/-- The fatal error of `EquationSystems::load`. -/
inductive LoadError where
  | unknownEquationSystemKind
  deriving DecidableEq

/-- A fully loaded equation system: its kind and the final values of
`decoupledOverset_` and `numOversetIters_`. -/
structure LoadedSys where
  kind : EqSysKind
  decoupledOverset : Bool
  numOversetIters : Nat
  deriving DecidableEq

/-- Events of `EquationSystems::load`, indexed by declaration position:
reading the global overset settings, constructing system `i`, assigning the
global defaults onto system `i`, and invoking the own `load` of system `i`. -/
inductive LoadEvent where
  | readGlobalFlags
  | construct (i : Nat)
  | assignDefaults (i : Nat)
  | sysLoad (i : Nat)
  deriving DecidableEq

/-- The `for (size_t isystem = 0; ...)` loop of `EquationSystems::load`:
dispatch on the kind name (unknown kind throws, aborting the loop), construct
the system, assign `eqSys->decoupledOverset_ = decoupledOversetGlobalFlag_`
and `eqSys->numOversetIters_ = numOversetItersDefault_`, then call
`eqSys->load(y_eqsys)` which applies the per-declaration overrides. -/
def loadDecls (gFlag : Bool) (gIters : Nat) :
    List EqSysDecl → Nat → List LoadEvent × Except LoadError (List LoadedSys)
  | [], _ => ([], Except.ok [])
  | d :: rest, i =>
    match recognize d.kindName with
    | none => ([], Except.error LoadError.unknownEquationSystemKind)
    | some k =>
      ([LoadEvent.construct i, LoadEvent.assignDefaults i, LoadEvent.sysLoad i]
          ++ (loadDecls gFlag gIters rest (i + 1)).1,
        (loadDecls gFlag gIters rest (i + 1)).2.map (fun ss =>
          { kind := k,
            decoupledOverset := d.declDecoupled.getD gFlag,
            numOversetIters := d.declNumOversetIters.getD gIters } :: ss))

/-- `EquationSystems::load`: the global overset settings are read (via
`get_if_present`, keeping `flag0`/`iters0` when absent) only when the realm
declares overset meshes, then the declaration loop runs. -/
def eqSystemsLoad (cfg : LoadConfig) (flag0 : Bool) (iters0 : Nat) :
    List LoadEvent × Except LoadError (List LoadedSys) :=
  ((if cfg.hasOverset then [LoadEvent.readGlobalFlags] else [])
      ++ (loadDecls
            (if cfg.hasOverset then cfg.cfgDecoupled.getD flag0 else flag0)
            (if cfg.hasOverset then cfg.cfgNumOversetIters.getD iters0
              else iters0)
            cfg.decls 0).1,
    (loadDecls
        (if cfg.hasOverset then cfg.cfgDecoupled.getD flag0 else flag0)
        (if cfg.hasOverset then cfg.cfgNumOversetIters.getD iters0 else iters0)
        cfg.decls 0).2)

theorem loadDecls_first_bad (gFlag : Bool) (gIters : Nat) (d : EqSysDecl)
    (post : List EqSysDecl) (hbad : recognize d.kindName = none) :
    ∀ (pre : List EqSysDecl) (i0 : Nat),
      (∀ p ∈ pre, (recognize p.kindName).isSome) →
      (loadDecls gFlag gIters (pre ++ d :: post) i0).2
          = Except.error LoadError.unknownEquationSystemKind
        ∧ ∀ j, LoadEvent.sysLoad j ∈ (loadDecls gFlag gIters
            (pre ++ d :: post) i0).1 → j < i0 + pre.length := by
  intro pre
  induction pre with
  | nil =>
    intro i0 _
    rw [List.nil_append]
    constructor
    · show (loadDecls gFlag gIters (d :: post) i0).2 = _
      simp [loadDecls, hbad]
    · intro j hj
      simp [loadDecls, hbad] at hj
  | cons p pre ih =>
    intro i0 hpre
    obtain ⟨k, hk⟩ := Option.isSome_iff_exists.mp
      (hpre p (List.mem_cons_self p pre))
    have ihr := ih (i0 + 1) (fun q hq => hpre q (List.mem_cons_of_mem p hq))
    rw [List.cons_append]
    constructor
    · simp only [loadDecls, hk]
      rw [ihr.1]
      rfl
    · intro j hj
      simp only [loadDecls, hk] at hj
      simp only [List.cons_append, List.nil_append, List.mem_cons] at hj
      rcases hj with h | h | h | h
      · cases h
      · cases h
      · injection h with h
        subst h
        simp only [List.length_cons]
        omega
      · have := ihr.2 j h
        simp only [List.length_cons]
        omega

/-- C5: `EquationSystems::load`, on an ordered declaration sequence whose
first unrecognized kind name sits after a recognized prefix, fails fatally
with the unknown-equation-system-kind error and processes no further
declaration: every per-system `load` event in the trace belongs to the
recognized prefix. -/
theorem load_unknown_kind_aborts (cfg : LoadConfig) (flag0 : Bool)
    (iters0 : Nat) (pre post : List EqSysDecl) (d : EqSysDecl)
    (hsplit : cfg.decls = pre ++ d :: post)
    (hpre : ∀ p ∈ pre, (recognize p.kindName).isSome)
    (hbad : recognize d.kindName = none) :
    (eqSystemsLoad cfg flag0 iters0).2
        = Except.error LoadError.unknownEquationSystemKind
      ∧ ∀ j, LoadEvent.sysLoad j ∈ (eqSystemsLoad cfg flag0 iters0).1 →
          j < pre.length := by
  have h := loadDecls_first_bad
    (if cfg.hasOverset then cfg.cfgDecoupled.getD flag0 else flag0)
    (if cfg.hasOverset then cfg.cfgNumOversetIters.getD iters0 else iters0)
    d post hbad pre 0 hpre
  constructor
  · show (loadDecls _ _ cfg.decls 0).2 = _
    rw [hsplit]
    exact h.1
  · intro j hj
    have hj2 : LoadEvent.sysLoad j
        ∈ (loadDecls
            (if cfg.hasOverset then cfg.cfgDecoupled.getD flag0 else flag0)
            (if cfg.hasOverset then cfg.cfgNumOversetIters.getD iters0
              else iters0) cfg.decls 0).1 := by
      rcases List.mem_append.mp hj with hl | hr
      · cases hco : cfg.hasOverset <;> rw [hco] at hl <;> simp at hl
      · exact hr
    rw [hsplit] at hj2
    have := h.2 j hj2
    omega

/-- Concrete configuration for the C5 witness: a recognized declaration, then
an unrecognized kind name, then another recognized declaration. -/
def cfgBadKind : LoadConfig :=
  { hasOverset := false, cfgDecoupled := none, cfgNumOversetIters := none,
    decls :=
      [{ kindName := "LowMachEOM", declDecoupled := none,
         declNumOversetIters := none },
       { kindName := "MagnetoHydro", declDecoupled := none,
         declNumOversetIters := none },
       { kindName := "Enthalpy", declDecoupled := none,
         declNumOversetIters := none }] }

/-- Witness for C5: on the concrete sequence the load aborts with the
unknown-kind error and the declaration after the unrecognized one is never
processed. -/
theorem load_unknown_kind_aborts_witness :
    (eqSystemsLoad cfgBadKind false 1).2
        = Except.error LoadError.unknownEquationSystemKind
      ∧ (LoadEvent.sysLoad 2 ∈ (eqSystemsLoad cfgBadKind false 1).1 →
          (2 : Nat) < 1) := by
  have h := load_unknown_kind_aborts cfgBadKind false 1
    [{ kindName := "LowMachEOM", declDecoupled := none,
       declNumOversetIters := none }]
    [{ kindName := "Enthalpy", declDecoupled := none,
       declNumOversetIters := none }]
    { kindName := "MagnetoHydro", declDecoupled := none,
      declNumOversetIters := none }
    rfl (by decide) (by decide)
  exact ⟨h.1, fun hm => h.2 2 hm⟩

/-! Claim C6: the two-phase default-then-override handling of the overset
settings in `EquationSystems::load`. -/

/-- The canonical event blocks of a fully successful declaration loop:
construct, assign defaults, own load, for indices `i0, i0+1, ...`. -/
def declBlocks (i0 : Nat) : Nat → List LoadEvent
  | 0 => []
  | c + 1 =>
    LoadEvent.construct i0 :: LoadEvent.assignDefaults i0
      :: LoadEvent.sysLoad i0 :: declBlocks (i0 + 1) c

/-- Specification-side resolved per-system configuration (written from the
words of the spec, for comparison with the source-derived `load`): the global
overset settings are resolved once — from the document only when the realm
has overset meshes, otherwise keeping the initial member values — and every
system receives them as initial values which its own declaration block may
then override. -/
def specResolvedSystems (cfg : LoadConfig) (flag0 : Bool) (iters0 : Nat) :
    List LoadedSys :=
  cfg.decls.map (fun d =>
    { kind := (recognize d.kindName).getD EqSysKind.LowMachEOM,
      decoupledOverset := d.declDecoupled.getD
        (if cfg.hasOverset then cfg.cfgDecoupled.getD flag0 else flag0),
      numOversetIters := d.declNumOversetIters.getD
        (if cfg.hasOverset then cfg.cfgNumOversetIters.getD iters0
          else iters0) })

theorem loadDecls_all_ok (gFlag : Bool) (gIters : Nat) :
    ∀ (l : List EqSysDecl) (i0 : Nat),
      (∀ d ∈ l, (recognize d.kindName).isSome) →
      (loadDecls gFlag gIters l i0).1 = declBlocks i0 l.length
        ∧ (loadDecls gFlag gIters l i0).2 = Except.ok (l.map (fun d =>
            { kind := (recognize d.kindName).getD EqSysKind.LowMachEOM,
              decoupledOverset := d.declDecoupled.getD gFlag,
              numOversetIters := d.declNumOversetIters.getD gIters })) := by
  intro l
  induction l with
  | nil => intro i0 _; exact ⟨rfl, rfl⟩
  | cons d rest ih =>
    intro i0 h
    obtain ⟨k, hk⟩ := Option.isSome_iff_exists.mp
      (h d (List.mem_cons_self d rest))
    have ihr := ih (i0 + 1) (fun q hq => h q (List.mem_cons_of_mem d hq))
    constructor
    · simp only [loadDecls, hk, declBlocks, List.length_cons]
      rw [ihr.1]
      rfl
    · simp only [loadDecls, hk, List.map_cons]
      rw [ihr.2]
      simp only [Except.map, hk, Option.getD_some]

theorem declBlocks_no_read (i0 c : Nat) :
    countOcc LoadEvent.readGlobalFlags (declBlocks i0 c) = 0 := by
  induction c generalizing i0 with
  | zero => rfl
  | succ c ih => simp [declBlocks, countOcc, ih]

theorem declBlocks_assign_before_load (c : Nat) :
    ∀ (i0 i : Nat), i0 ≤ i → i < i0 + c →
      ∃ l1 l2, declBlocks i0 c
        = l1 ++ LoadEvent.assignDefaults i :: LoadEvent.sysLoad i :: l2 := by
  induction c with
  | zero => intro i0 i h1 h2; omega
  | succ c ih =>
    intro i0 i h1 h2
    by_cases hi : i = i0
    · subst hi
      exact ⟨[LoadEvent.construct i], declBlocks (i + 1) c, rfl⟩
    · obtain ⟨l1, l2, hl⟩ := ih (i0 + 1) i (by omega) (by omega)
      refine ⟨LoadEvent.construct i0 :: LoadEvent.assignDefaults i0
        :: LoadEvent.sysLoad i0 :: l1, l2, ?_⟩
      rw [declBlocks, hl]
      rfl

/-- C6: when every declaration is recognized, one `EquationSystems::load`
reads the global overset settings exactly once when the realm has overset
meshes (and never otherwise); for every declaration index the assignment of
the global defaults onto that system immediately — in particular strictly —
precedes the invocation of the own `load` of that system; and the resolved
systems carry exactly the two-phase values: the global default when the
declaration block is silent, the declaration override otherwise. -/
theorem load_two_phase_defaults (cfg : LoadConfig) (flag0 : Bool)
    (iters0 : Nat) (h : ∀ d ∈ cfg.decls, (recognize d.kindName).isSome) :
    countOcc LoadEvent.readGlobalFlags (eqSystemsLoad cfg flag0 iters0).1
        = (if cfg.hasOverset then 1 else 0)
      ∧ (∀ i, i < cfg.decls.length →
          ∃ l1 l2, (eqSystemsLoad cfg flag0 iters0).1
            = l1 ++ LoadEvent.assignDefaults i :: LoadEvent.sysLoad i :: l2)
      ∧ (eqSystemsLoad cfg flag0 iters0).2
          = Except.ok (specResolvedSystems cfg flag0 iters0) := by
  have hd := loadDecls_all_ok
    (if cfg.hasOverset then cfg.cfgDecoupled.getD flag0 else flag0)
    (if cfg.hasOverset then cfg.cfgNumOversetIters.getD iters0 else iters0)
    cfg.decls 0 h
  refine ⟨?_, ?_, ?_⟩
  · show countOcc _ ((if cfg.hasOverset then [LoadEvent.readGlobalFlags]
        else []) ++ (loadDecls _ _ cfg.decls 0).1) = _
    rw [countOcc_append, hd.1, declBlocks_no_read]
    cases cfg.hasOverset <;> simp [countOcc]
  · intro i hi
    obtain ⟨l1, l2, hl⟩ := declBlocks_assign_before_load cfg.decls.length 0 i
      (Nat.zero_le i) (by omega)
    refine ⟨(if cfg.hasOverset then [LoadEvent.readGlobalFlags] else [])
      ++ l1, l2, ?_⟩
    show (if cfg.hasOverset then [LoadEvent.readGlobalFlags] else [])
        ++ (loadDecls _ _ cfg.decls 0).1 = _
    rw [hd.1, hl, List.append_assoc]
  · show (loadDecls _ _ cfg.decls 0).2 = _
    rw [hd.2]
    rfl

/-- Concrete configuration for the C6 witness: an overset realm with global
settings (decoupled, 4 correctors); the first declaration keeps the global
defaults, the second overrides both in its own block. -/
def cfgTwoPhase : LoadConfig :=
  { hasOverset := true, cfgDecoupled := some true,
    cfgNumOversetIters := some 4,
    decls :=
      [{ kindName := "TurbKineticEnergy", declDecoupled := none,
         declNumOversetIters := none },
       { kindName := "Enthalpy", declDecoupled := some false,
         declNumOversetIters := some 2 }] }

/-- Witness for C6 at concrete inputs: the global settings are read once, the
default assignment for the second system precedes its own load, and the
resolved systems show the default-then-override values. -/
theorem load_two_phase_defaults_witness :
    countOcc LoadEvent.readGlobalFlags (eqSystemsLoad cfgTwoPhase false 1).1
        = 1
      ∧ (∃ l1 l2, (eqSystemsLoad cfgTwoPhase false 1).1
          = l1 ++ LoadEvent.assignDefaults 1 :: LoadEvent.sysLoad 1 :: l2)
      ∧ (eqSystemsLoad cfgTwoPhase false 1).2
          = Except.ok
              [{ kind := EqSysKind.TurbKineticEnergy,
                 decoupledOverset := true, numOversetIters := 4 },
               { kind := EqSysKind.Enthalpy,
                 decoupledOverset := false, numOversetIters := 2 }] := by
  have h := load_two_phase_defaults cfgTwoPhase false 1 (by decide)
  exact ⟨h.1.trans rfl, h.2.1 1 (by decide),
    h.2.2.trans (congrArg Except.ok (by decide))⟩

/-! Model of the FieldManager / FieldRegistry layer for claims C4 and C9.
The FieldManager header is under src; `FieldRegistry::query` and the
implementation file of `FieldManager` (with `field_exists` and
`register_field`) are repository code not under src, so those operations are
modelled from the specification (and cross-checked against the FieldManager
unit tests under src). -/

/-- The closed set of field kinds of the pointer variant
(`FieldPointerTypes`): scalar, vector, tensor, generic, integer and id
fields. -/
inductive FieldTypeT where
  | scalarT | vectorT | tensorT | genericT | scalarIntT | genericIntT
  | globalIdT
  deriving DecidableEq

/-- A Field Registry entry: the (spatial dimension, number of states, name)
key and the declared field type and entity rank. -/
structure FieldDefn where
  dim : Nat
  states : Nat
  fname : String
  ftype : FieldTypeT
  frank : Nat
  deriving DecidableEq

/-- The failures of the FieldManager layer. -/
inductive FMError where
  | unknownField
  | typeMismatch
  | notRegistered
  deriving DecidableEq

/-- Modelled from the spec: `FieldRegistry::query(dim, numStates, name)`
(FieldRegistry.C is not under src/) is a pure lookup keyed on the triple
(spatial dimension, number of states, name) that fails with UnknownField when
no entry matches. -/
def fieldRegistryQuery (reg : List FieldDefn) (dim states : Nat)
    (nm : String) : Except FMError FieldDefn :=
  match reg.find? (fun d =>
      d.dim == dim && d.states == states && d.fname == nm) with
  | none => Except.error FMError.unknownField
  | some d => Except.ok d

/-- A `FieldManager`: constructed with the spatial dimension of the metadata
and the number of states; both are used as the registry key. -/
structure FieldManagerM where
  numDimensions : Nat
  numStates : Nat
  deriving DecidableEq

/-- The mesh-database schema: the fields declared on it, with their declared
type. -/
structure MeshDB where
  fields : List (String × FieldTypeT)
  deriving DecidableEq

/-- Lookup of a declared field on the mesh database (`MetaData::get_field`
returning null on absence becomes `none`). -/
def dbLookup (db : MeshDB) (nm : String) : Option FieldTypeT :=
  (db.fields.find? (fun pr => pr.1 == nm)).map (fun pr => pr.2)

/-- Modelled from the spec: `FieldManager::field_exists` (FieldManager.C is
not under src/; behavior fixed by spec section 4.2 and the FieldManagerTest
unit tests under src) — fails with UnknownField when the name has no Registry
entry for the (dimension, numStates) key of this manager, and otherwise
reports whether the field has been registered on the mesh database. -/
def field_existsM (reg : List FieldDefn) (fm : FieldManagerM) (db : MeshDB)
    (nm : String) : Except FMError Bool :=
  match fieldRegistryQuery reg fm.numDimensions fm.numStates nm with
  | Except.error e => Except.error e
  | Except.ok _ => Except.ok ((dbLookup db nm).isSome)

/-- Modelled from the spec: the non-template
`FieldManager::register_field(name, parts, ...)` (FieldManager.C is not under
src/) — resolves the descriptor via the Registry (failing with UnknownField
on an unknown name) and declares the field on the mesh database if it is not
already present (re-registration is idempotent on the schema). -/
def register_fieldM (reg : List FieldDefn) (fm : FieldManagerM) (db : MeshDB)
    (nm : String) : Except FMError MeshDB :=
  match fieldRegistryQuery reg fm.numDimensions fm.numStates nm with
  | Except.error e => Except.error e
  | Except.ok d =>
    Except.ok (if (dbLookup db nm).isSome then db
      else { fields := (nm, d.ftype) :: db.fields })

/-- A typed field handle for a given time-state (the result of a successful
`get_field_ptr<T>`). -/
structure FieldHandle where
  hname : String
  htype : FieldTypeT
  hrank : Nat
  hstate : Nat
  deriving DecidableEq

/-- `FieldManager::get_field_ptr<T>` (FieldManager header under src): query
the Registry for the descriptor; `std::visit` fetches the field of the
registry-declared type from the mesh database and takes the requested state —
a name never registered on the database fails there (the stk accessor is
external; its failure is modelled from the spec as NotRegistered); finally
`std::get<T*>` on the closed pointer variant succeeds iff the requested type
equals the registry-declared type, and throws (TypeMismatch) otherwise. -/
def get_field_ptrM (reg : List FieldDefn) (fm : FieldManagerM) (db : MeshDB)
    (T : FieldTypeT) (nm : String) (state : Nat) : Except FMError FieldHandle :=
  match fieldRegistryQuery reg fm.numDimensions fm.numStates nm with
  | Except.error e => Except.error e
  | Except.ok d =>
    match dbLookup db nm with
    | none => Except.error FMError.notRegistered
    | some _ =>
      if T = d.ftype then
        Except.ok
          { hname := nm, htype := d.ftype, hrank := d.frank,
            hstate := state }
      else Except.error FMError.typeMismatch

/-- C4: for a FieldManager with a given (dimension, numStates) key,
`field_exists` fails with UnknownField for every name without a Registry
entry under that key, returns false for a name present in the Registry but
not yet registered on the mesh database, and returns true after
`register_field` has succeeded for that name. -/
theorem field_exists_policy (reg : List FieldDefn) (fm : FieldManagerM)
    (db : MeshDB) (nm : String) :
    (fieldRegistryQuery reg fm.numDimensions fm.numStates nm
          = Except.error FMError.unknownField →
        field_existsM reg fm db nm = Except.error FMError.unknownField)
      ∧ (∀ d, fieldRegistryQuery reg fm.numDimensions fm.numStates nm
            = Except.ok d → dbLookup db nm = none →
          field_existsM reg fm db nm = Except.ok false)
      ∧ (∀ db2, register_fieldM reg fm db nm = Except.ok db2 →
          field_existsM reg fm db2 nm = Except.ok true) := by
  refine ⟨?_, ?_, ?_⟩
  · intro h
    simp [field_existsM, h]
  · intro d hq hnone
    simp [field_existsM, hq, hnone]
  · intro db2 hreg
    cases hq : fieldRegistryQuery reg fm.numDimensions fm.numStates nm with
    | error e =>
      rw [register_fieldM] at hreg
      rw [hq] at hreg
      cases hreg
    | ok d =>
      rw [register_fieldM] at hreg
      rw [hq] at hreg
      have hdb2 : db2 = if (dbLookup db nm).isSome then db
          else { fields := (nm, d.ftype) :: db.fields } := by
        cases hreg
        rfl
      simp only [field_existsM, hq]
      suffices hsome : (dbLookup db2 nm).isSome by rw [hsome]
      by_cases hpresent : (dbLookup db nm).isSome
      · rw [hdb2, if_pos hpresent]
        exact hpresent
      · rw [hdb2, if_neg hpresent]
        simp [dbLookup, List.find?]

/-- Registry for the FieldManager witnesses: under the key (3 dimensions,
2 states) the single known name is `velocity`, a node-rank vector field (the
configuration of the FieldManagerTest unit tests). -/
def regVel : List FieldDefn :=
  [{ dim := 3, states := 2, fname := "velocity",
     ftype := FieldTypeT.vectorT, frank := 0 }]

/-- FieldManager for the witnesses: 3 dimensions, 2 states. -/
def fmVel : FieldManagerM := { numDimensions := 3, numStates := 2 }

/-- An empty mesh database. -/
def dbEmpty : MeshDB := { fields := [] }

/-- The mesh database after registering `velocity`. -/
def dbVel : MeshDB := { fields := [("velocity", FieldTypeT.vectorT)] }

/-- Witness for C4 at concrete inputs: the unknown name `acrazyqoi` fails,
the known-but-unregistered name `velocity` reports false, and after
registration it reports true. -/
theorem field_exists_policy_witness :
    field_existsM regVel fmVel dbEmpty "acrazyqoi"
        = Except.error FMError.unknownField
      ∧ field_existsM regVel fmVel dbEmpty "velocity" = Except.ok false
      ∧ register_fieldM regVel fmVel dbEmpty "velocity" = Except.ok dbVel
      ∧ field_existsM regVel fmVel dbVel "velocity" = Except.ok true := by
  have h1 := (field_exists_policy regVel fmVel dbEmpty "acrazyqoi").1 rfl
  have h2 := (field_exists_policy regVel fmVel dbEmpty "velocity").2.1
    { dim := 3, states := 2, fname := "velocity",
      ftype := FieldTypeT.vectorT, frank := 0 } rfl rfl
  have h3 := (field_exists_policy regVel fmVel dbEmpty "velocity").2.2
    dbVel rfl
  exact ⟨h1, h2, rfl, h3⟩

/-- C9: `get_field_ptr<T>` resolves the declared type through the Registry
and a closed variant dispatch: with the field registered, a requested type
`T` different from the declared type fails with TypeMismatch; with correct
`T` but a name never registered on the mesh database it fails (and in
particular never returns a handle); with correct `T` on a registered name it
returns the typed handle carrying the requested time-state. -/
theorem get_field_ptr_type_checked (reg : List FieldDefn)
    (fm : FieldManagerM) (db : MeshDB) (T : FieldTypeT) (nm : String)
    (state : Nat) (d : FieldDefn)
    (hq : fieldRegistryQuery reg fm.numDimensions fm.numStates nm
        = Except.ok d) :
    ((dbLookup db nm).isSome → T ≠ d.ftype →
        get_field_ptrM reg fm db T nm state
          = Except.error FMError.typeMismatch)
      ∧ (dbLookup db nm = none →
          get_field_ptrM reg fm db T nm state
              = Except.error FMError.notRegistered
            ∧ ∀ h, get_field_ptrM reg fm db T nm state ≠ Except.ok h)
      ∧ (T = d.ftype → (dbLookup db nm).isSome →
          get_field_ptrM reg fm db T nm state
            = Except.ok
                { hname := nm, htype := d.ftype, hrank := d.frank,
                  hstate := state }) := by
  refine ⟨?_, ?_, ?_⟩
  · intro hsome hT
    obtain ⟨t, ht⟩ := Option.isSome_iff_exists.mp hsome
    simp only [get_field_ptrM, hq, ht]
    rw [if_neg hT]
  · intro hnone
    have hval : get_field_ptrM reg fm db T nm state
        = Except.error FMError.notRegistered := by
      simp only [get_field_ptrM, hq, hnone]
    exact ⟨hval, fun h hcontra => by rw [hval] at hcontra; cases hcontra⟩
  · intro hT hsome
    obtain ⟨t, ht⟩ := Option.isSome_iff_exists.mp hsome
    simp only [get_field_ptrM, hq, ht]
    rw [if_pos hT]

/-- Witness for C9 at concrete inputs: requesting `velocity` as a scalar
fails with TypeMismatch; requesting it with the correct vector type before
registration fails with NotRegistered; after registration the typed handle
for state 1 is returned. -/
theorem get_field_ptr_type_checked_witness :
    get_field_ptrM regVel fmVel dbVel FieldTypeT.scalarT "velocity" 0
        = Except.error FMError.typeMismatch
      ∧ get_field_ptrM regVel fmVel dbEmpty FieldTypeT.vectorT "velocity" 0
          = Except.error FMError.notRegistered
      ∧ get_field_ptrM regVel fmVel dbVel FieldTypeT.vectorT "velocity" 1
          = Except.ok
              { hname := "velocity", htype := FieldTypeT.vectorT,
                hrank := 0, hstate := 1 } := by
  have hd : fieldRegistryQuery regVel fmVel.numDimensions fmVel.numStates
      "velocity" = Except.ok
        { dim := 3, states := 2, fname := "velocity",
          ftype := FieldTypeT.vectorT, frank := 0 } := rfl
  have h1 := (get_field_ptr_type_checked regVel fmVel dbVel
    FieldTypeT.scalarT "velocity" 0 _ hd).1 rfl (by decide)
  have h2 := ((get_field_ptr_type_checked regVel fmVel dbEmpty
    FieldTypeT.vectorT "velocity" 0 _ hd).2.1 rfl).1
  have h3 := (get_field_ptr_type_checked regVel fmVel dbVel
    FieldTypeT.vectorT "velocity" 1 _ hd).2.2 rfl rfl
  exact ⟨h1, h2, h3⟩
